import Mathlib

/-!
# Verification of the SMHI forecast library (`smhi/smhi_lib.py`)

Shallow embedding of the JSON-to-forecast mapping code and the fetch
facade of `smhi_lib.py`.  JSON numbers are modelled as rationals,
Python's `int(...)` cast as truncation toward zero, Python 3's `round`
as round-half-to-even, and the exceptions that dictionary / list
indexing can raise (`KeyError`, `IndexError`) as an `Except` monad.
-/

/-- A `{name, values}` parameter object inside a time-series entry. -/
structure ParamJson where
  name : String
  values : List ℚ
deriving DecidableEq, Repr

/-- One entry of the `timeSeries` array.  The `parameters` key may be
absent (`none`), in which case the Python code raises a `KeyError`. -/
structure TimeSeriesEntry where
  parameters? : Option (List ParamJson)
deriving DecidableEq, Repr

/-- The decoded top-level JSON document.  The `timeSeries` key may be
absent (`none`), in which case the Python code raises a `KeyError`. -/
structure ApiResult where
  timeSeries? : Option (List TimeSeriesEntry)
deriving DecidableEq, Repr

/-- The Python exceptions the mapper can raise. -/
inductive PyError where
  | keyError (key : String)
  | indexError
deriving DecidableEq, Repr

/-- The forecast record built by `_get_forecast`
(class `SmhiForecast`, constructor argument order of the source). -/
structure SmhiForecast where
  temperature : Int
  humidity : Int
  pressure : Int
  thunder : Int
  cloudiness : Int
  symbol : Int
deriving DecidableEq, Repr

instance {ε α : Type} [DecidableEq ε] [DecidableEq α] : DecidableEq (Except ε α) :=
  fun x y =>
  match x, y with
  | Except.ok a, Except.ok b =>
    if h : a = b then isTrue (by rw [h])
    else isFalse (by intro hc; cases hc; exact h rfl)
  | Except.ok _, Except.error _ => isFalse (by intro hc; cases hc)
  | Except.error _, Except.ok _ => isFalse (by intro hc; cases hc)
  | Except.error e, Except.error f =>
    if h : e = f then isTrue (by rw [h])
    else isFalse (by intro hc; cases hc; exact h rfl)

/-- Python's `int(x)` on a number: truncation toward zero
(`Int.tdiv` is T-division, matching Python's `int()`; e.g.
`int(-0.5) = 0` and `int(-3.5) = -3`). -/
def pyint (q : ℚ) : Int := q.num.tdiv (q.den : Int)

/-- Python 3's `round(num/den)` for integers `num` and positive `den`:
round half to even on the exact rational value. -/
def pyRound (num den : Int) : Int :=
  let q := Int.fdiv num den
  let r := Int.emod num den
  if 2 * r < den then q
  else if den < 2 * r then q + 1
  else if q % 2 = 0 then q else q + 1

/-- The cloudiness conversion of the `tcc_mean` branch in
`_get_forecast`: octas in `[0, 8]` become `round(100*octa/8)` percent,
anything else becomes 100 percent. -/
def cloudinessOfOcta (octa : Int) : Int :=
  if 0 ≤ octa ∧ octa ≤ 8 then pyRound (100 * octa) 8 else 100

/-- The six local accumulator variables of the per-entry loop of
`_get_forecast`, all initialised to 0. -/
structure LoopState where
  temperature : Int
  pressure : Int
  humidity : Int
  thunder : Int
  symbol : Int
  cloudiness : Int
deriving DecidableEq, Repr

/-- All six accumulators start at 0. -/
def initLoopState : LoopState :=
  { temperature := 0, pressure := 0, humidity := 0,
    thunder := 0, symbol := 0, cloudiness := 0 }

/-- One iteration of the inner `for param in forecast['parameters']`
loop of `_get_forecast`: the `if/elif` chain on `param['name']`.
Accessing `param['values'][0]` on an empty list raises `IndexError`;
an unrecognised name leaves the state untouched. -/
def applyParam (st : LoopState) (param : ParamJson) : Except PyError LoopState :=
  if param.name = "t" then
    match param.values with
    | [] => Except.error PyError.indexError
    | v :: _ => Except.ok { st with temperature := pyint v }
  else if param.name = "r" then
    match param.values with
    | [] => Except.error PyError.indexError
    | v :: _ => Except.ok { st with humidity := pyint v }
  else if param.name = "msl" then
    match param.values with
    | [] => Except.error PyError.indexError
    | v :: _ => Except.ok { st with pressure := pyint v }
  else if param.name = "tstm" then
    match param.values with
    | [] => Except.error PyError.indexError
    | v :: _ => Except.ok { st with thunder := pyint v }
  else if param.name = "tcc_mean" then
    match param.values with
    | [] => Except.error PyError.indexError
    | v :: _ => Except.ok { st with cloudiness := cloudinessOfOcta (pyint v) }
  else if param.name = "Wsymb2" then
    match param.values with
    | [] => Except.error PyError.indexError
    | v :: _ => Except.ok { st with symbol := pyint v }
  else
    Except.ok st

/-- Python dictionary access `obj[key]`: raises `KeyError key` when the
key is absent. -/
def dictGet (o : Option α) (key : String) : Except PyError α :=
  match o with
  | some a => Except.ok a
  | none => Except.error (PyError.keyError key)

/-- The body of the outer `for forecast in api_result['timeSeries']`
loop: read the entry's `parameters`, run the accumulator loop, and
build one `SmhiForecast` from the six accumulated values. -/
def entryForecast (forecast : TimeSeriesEntry) : Except PyError SmhiForecast :=
  dictGet forecast.parameters? "parameters" >>= fun params =>
    List.foldlM applyParam initLoopState params >>= fun st =>
      Except.ok
        { temperature := st.temperature, humidity := st.humidity,
          pressure := st.pressure, thunder := st.thunder,
          cloudiness := st.cloudiness, symbol := st.symbol }

/-- `_get_forecast`: convert an API result to the list of
`SmhiForecast` records, one per time-series entry, in input order.
Any raised exception aborts the whole computation. -/
def _get_forecast (api_result : ApiResult) : Except PyError (List SmhiForecast) :=
  dictGet api_result.timeSeries? "timeSeries" >>= fun ts =>
    ts.mapM entryForecast

/-- The injectable API capability (`SmhiAPIBase`): a blocking and a
suspending fetch operation.  The network effect is abstracted into the
returned document; the suspending variant also receives the optional
session object. -/
structure SmhiAPIBase where
  get_forecast_api : String → String → ApiResult
  async_get_forecast_api : String → String → Option Unit → ApiResult

/-- The `Smhi` facade: coordinates plus the injected API capability. -/
structure Smhi where
  longitude : String
  latitude : String
  api : SmhiAPIBase

/-- `Smhi.get_forecast`: blocking fetch, then `_get_forecast`. -/
def Smhi.get_forecast (self : Smhi) : Except PyError (List SmhiForecast) :=
  _get_forecast (self.api.get_forecast_api self.longitude self.latitude)

/-- `Smhi.async_get_forecast`: suspending fetch, then `_get_forecast`. -/
def Smhi.async_get_forecast (self : Smhi) (session : Option Unit) :
    Except PyError (List SmhiForecast) :=
  _get_forecast (self.api.async_get_forecast_api self.longitude self.latitude session)

/-! ## Helper lemmas about the `Except` monad and monadic folds -/

theorem except_bind_ok {ε α β : Type} (x : Except ε α) (g : α → Except ε β) (b : β) :
    (x >>= g) = Except.ok b ↔ ∃ a, x = Except.ok a ∧ g a = Except.ok b := by
  cases x <;> simp [Bind.bind, Except.bind]

theorem except_mapM_ok_length {ε α β : Type} (f : α → Except ε β) :
    ∀ (l : List α) (bs : List β), l.mapM f = Except.ok bs → bs.length = l.length := by
  intro l
  induction l with
  | nil =>
    intro bs h
    rw [List.mapM_nil] at h
    simp [Pure.pure, Except.pure] at h
    simp [← h]
  | cons a t ih =>
    intro bs h
    rw [List.mapM_cons] at h
    rw [except_bind_ok] at h
    obtain ⟨b, _, h⟩ := h
    rw [except_bind_ok] at h
    obtain ⟨ts, hts, h⟩ := h
    have : bs = b :: ts := by
      have := h
      simp [Pure.pure, Except.pure] at this
      exact this.symm
    subst this
    simp [ih ts hts]

theorem except_mapM_ok_get {ε α β : Type} (f : α → Except ε β) :
    ∀ (l : List α) (bs : List β), l.mapM f = Except.ok bs →
      ∀ (i : ℕ) (h : i < l.length) (h' : i < bs.length),
        f (l.get ⟨i, h⟩) = Except.ok (bs.get ⟨i, h'⟩) := by
  intro l
  induction l with
  | nil => intro bs _ i h; exact absurd h (by simp)
  | cons a t ih =>
    intro bs h i hi hi'
    rw [List.mapM_cons, except_bind_ok] at h
    obtain ⟨b, hb, h⟩ := h
    rw [except_bind_ok] at h
    obtain ⟨ts, hts, h⟩ := h
    have hbs : bs = b :: ts := by
      have := h
      simp [Pure.pure, Except.pure] at this
      exact this.symm
    subst hbs
    cases i with
    | zero => simpa using hb
    | succ j =>
      have hj : j < t.length := by simpa using hi
      have hj' : j < ts.length := by simpa using hi'
      simpa using ih ts hts j hj hj'

theorem except_foldlM_append {ε α σ : Type} (f : σ → α → Except ε σ)
    (l₁ l₂ : List α) : ∀ s : σ,
    List.foldlM f s (l₁ ++ l₂) =
      (List.foldlM f s l₁ >>= fun s₁ => List.foldlM f s₁ l₂) := by
  induction l₁ with
  | nil => intro s; simp
  | cons a t ih =>
    intro s
    rw [List.cons_append, List.foldlM_cons, List.foldlM_cons]
    cases f s a <;> simp [Bind.bind, Except.bind, ih]

/-! ## Properties of one step of the parameter loop -/

/-- A parameter whose name differs from a given recognised name leaves
the corresponding accumulator field unchanged. -/
theorem applyParam_fields (st st' : LoopState) (p : ParamJson)
    (h : applyParam st p = Except.ok st') :
    (p.name ≠ "t" → st'.temperature = st.temperature) ∧
    (p.name ≠ "r" → st'.humidity = st.humidity) ∧
    (p.name ≠ "msl" → st'.pressure = st.pressure) ∧
    (p.name ≠ "tstm" → st'.thunder = st.thunder) ∧
    (p.name ≠ "tcc_mean" → st'.cloudiness = st.cloudiness) ∧
    (p.name ≠ "Wsymb2" → st'.symbol = st.symbol) := by
  unfold applyParam at h
  split_ifs at h <;>
    (revert h; cases p.values with
      | nil =>
        intro h
        first
          | exact Except.noConfusion h
          | (injection h with h; subst h;
             exact ⟨fun _ => rfl, fun _ => rfl, fun _ => rfl,
                    fun _ => rfl, fun _ => rfl, fun _ => rfl⟩)
      | cons v vs =>
        intro h
        injection h with h
        subst h
        refine ⟨?_, ?_, ?_, ?_, ?_, ?_⟩ <;> intro hn <;> simp_all)

/-- Folding the parameter loop over a list in which a given recognised
name never occurs leaves the corresponding field unchanged. -/
theorem foldlM_fields :
    ∀ (ps : List ParamJson) (st st' : LoopState),
      List.foldlM applyParam st ps = Except.ok st' →
      ((∀ p ∈ ps, p.name ≠ "t") → st'.temperature = st.temperature) ∧
      ((∀ p ∈ ps, p.name ≠ "r") → st'.humidity = st.humidity) ∧
      ((∀ p ∈ ps, p.name ≠ "msl") → st'.pressure = st.pressure) ∧
      ((∀ p ∈ ps, p.name ≠ "tstm") → st'.thunder = st.thunder) ∧
      ((∀ p ∈ ps, p.name ≠ "tcc_mean") → st'.cloudiness = st.cloudiness) ∧
      ((∀ p ∈ ps, p.name ≠ "Wsymb2") → st'.symbol = st.symbol) := by
  intro ps
  induction ps with
  | nil =>
    intro st st' h
    rw [List.foldlM_nil] at h
    have : st = st' := by simpa [Pure.pure, Except.pure] using h
    subst this
    exact ⟨fun _ => rfl, fun _ => rfl, fun _ => rfl,
           fun _ => rfl, fun _ => rfl, fun _ => rfl⟩
  | cons p t ih =>
    intro st st' h
    rw [List.foldlM_cons, except_bind_ok] at h
    obtain ⟨st₁, h₁, h₂⟩ := h
    have hp := applyParam_fields st st₁ p h₁
    have ht := ih st₁ st' h₂
    refine ⟨fun hn => ?_, fun hn => ?_, fun hn => ?_,
            fun hn => ?_, fun hn => ?_, fun hn => ?_⟩
    · exact (ht.1 fun q hq => hn q (List.mem_cons_of_mem p hq)).trans
        (hp.1 (hn p (List.mem_cons_self p t)))
    · exact (ht.2.1 fun q hq => hn q (List.mem_cons_of_mem p hq)).trans
        (hp.2.1 (hn p (List.mem_cons_self p t)))
    · exact (ht.2.2.1 fun q hq => hn q (List.mem_cons_of_mem p hq)).trans
        (hp.2.2.1 (hn p (List.mem_cons_self p t)))
    · exact (ht.2.2.2.1 fun q hq => hn q (List.mem_cons_of_mem p hq)).trans
        (hp.2.2.2.1 (hn p (List.mem_cons_self p t)))
    · exact (ht.2.2.2.2.1 fun q hq => hn q (List.mem_cons_of_mem p hq)).trans
        (hp.2.2.2.2.1 (hn p (List.mem_cons_self p t)))
    · exact (ht.2.2.2.2.2 fun q hq => hn q (List.mem_cons_of_mem p hq)).trans
        (hp.2.2.2.2.2 (hn p (List.mem_cons_self p t)))

/-- Processing a `tcc_mean` parameter sets the cloudiness accumulator
to the converted value of its first entry. -/
theorem applyParam_tcc (st : LoopState) (v : ℚ) (vs : List ℚ) :
    applyParam st ⟨"tcc_mean", v :: vs⟩ =
      Except.ok { st with cloudiness := cloudinessOfOcta (pyint v) } := rfl

/-- The six parameter names the mapper recognises. -/
def knownNames : List String := ["t", "r", "msl", "tstm", "tcc_mean", "Wsymb2"]

/-- A parameter with an unrecognised name is ignored: no exception, no
change of state. -/
theorem applyParam_unknown (st : LoopState) (p : ParamJson)
    (h : p.name ∉ knownNames) : applyParam st p = Except.ok st := by
  unfold applyParam
  simp only [knownNames, List.mem_cons, List.not_mem_nil, or_false, not_or] at h
  obtain ⟨h1, h2, h3, h4, h5, h6⟩ := h
  rw [if_neg h1, if_neg h2, if_neg h3, if_neg h4, if_neg h5, if_neg h6]

/-- A parameter whose `values` field is non-empty never raises. -/
theorem applyParam_total (st : LoopState) (p : ParamJson)
    (h : p.values ≠ []) : ∃ st', applyParam st p = Except.ok st' := by
  unfold applyParam
  split_ifs <;>
    (revert h; cases p.values with
      | nil => intro h; exact absurd rfl h
      | cons v vs => intro _; exact ⟨_, rfl⟩)

/-- Only the name and the first element of `values` matter to one loop
iteration. -/
theorem applyParam_head (st : LoopState) (p q : ParamJson)
    (hn : p.name = q.name) (hv : p.values.head? = q.values.head?) :
    applyParam st p = applyParam st q := by
  unfold applyParam
  rw [hn]
  revert hv
  rcases p.values with _ | ⟨v, vs⟩ <;> rcases q.values with _ | ⟨w, ws⟩ <;> intro hv
  · rfl
  · exact absurd hv (by simp)
  · exact absurd hv (by simp)
  · obtain rfl : v = w := by simpa using hv
    rfl

/-- Processing a `tcc_mean` parameter with an empty `values` raises. -/
theorem applyParam_tcc_nil (st : LoopState) :
    applyParam st ⟨"tcc_mean", []⟩ = Except.error PyError.indexError := rfl

/-- One loop iteration either keeps the cloudiness accumulator or sets
it to a converted octa value. -/
theorem applyParam_cloudiness (st st' : LoopState) (p : ParamJson)
    (h : applyParam st p = Except.ok st') :
    st'.cloudiness = st.cloudiness ∨
      ∃ octa, st'.cloudiness = cloudinessOfOcta octa := by
  by_cases htcc : p.name = "tcc_mean"
  · obtain ⟨name, values⟩ := p
    simp only at htcc
    subst htcc
    revert h
    cases values with
    | nil =>
      intro h
      rw [applyParam_tcc_nil] at h
      exact Except.noConfusion h
    | cons v vs =>
      intro h
      rw [applyParam_tcc] at h
      injection h with h
      subst h
      exact Or.inr ⟨pyint v, by simp⟩
  · exact Or.inl ((applyParam_fields st st' p h).2.2.2.2.1 htcc)

theorem except_ok_bind {ε α β : Type} (a : α) (g : α → Except ε β) :
    (Except.ok a >>= g) = g a := rfl

/-! ## Claim theorems -/

/-- C1: for every valid JSON document whose `timeSeries` field has N
entries, `_get_forecast` returns a list of exactly N records, and the
i-th record is built from the i-th time-series entry, preserving input
order exactly. -/
theorem C1_mapper_length_and_order (api_result : ApiResult)
    (ts : List TimeSeriesEntry) (recs : List SmhiForecast)
    (hts : api_result.timeSeries? = some ts)
    (h : _get_forecast api_result = Except.ok recs) :
    recs.length = ts.length ∧
      ∀ (i : ℕ) (hi : i < ts.length) (hi' : i < recs.length),
        entryForecast (ts.get ⟨i, hi⟩) = Except.ok (recs.get ⟨i, hi'⟩) := by
  unfold _get_forecast at h
  rw [hts] at h
  rw [show dictGet (some ts) "timeSeries" = Except.ok ts from rfl,
      except_ok_bind] at h
  exact ⟨except_mapM_ok_length _ _ _ h, except_mapM_ok_get _ _ _ h⟩

/-- Witness for C1 at a concrete one-entry document. -/
theorem C1_witness :
    ([(⟨21, 0, 0, 0, 0, 0⟩ : SmhiForecast)]).length =
      ([(⟨some [⟨"t", [21]⟩]⟩ : TimeSeriesEntry)]).length ∧
    entryForecast ⟨some [⟨"t", [21]⟩]⟩ =
      Except.ok (⟨21, 0, 0, 0, 0, 0⟩ : SmhiForecast) := by
  have h := C1_mapper_length_and_order ⟨some [⟨some [⟨"t", [21]⟩]⟩]⟩
    [⟨some [⟨"t", [21]⟩]⟩] [⟨21, 0, 0, 0, 0, 0⟩] rfl (by decide)
  exact ⟨h.1, h.2 0 (by decide) (by decide)⟩

/-- C2: for every time-series entry containing a `tcc_mean` parameter
(the one that sticks, i.e. with no later `tcc_mean` occurrence), the
record's cloudiness is `round(100*octa/8)` when the integer cast
`octa` of the parameter's first value lies in `[0, 8]` and 100
otherwise; in particular octa 4 gives 50, octa 0 gives 0 and octa 9
gives 100. -/
theorem C2_cloudiness_transform :
    (∀ (e : TimeSeriesEntry) (l₁ l₂ : List ParamJson) (v : ℚ)
        (vs : List ℚ) (r : SmhiForecast),
      e.parameters? = some (l₁ ++ ⟨"tcc_mean", v :: vs⟩ :: l₂) →
      (∀ p ∈ l₂, p.name ≠ "tcc_mean") →
      entryForecast e = Except.ok r →
      r.cloudiness = cloudinessOfOcta (pyint v)) ∧
    cloudinessOfOcta 4 = 50 ∧ cloudinessOfOcta 0 = 0 ∧
    cloudinessOfOcta 9 = 100 := by
  refine ⟨?_, by decide, by decide, by decide⟩
  intro e l₁ l₂ v vs r he hl₂ h
  unfold entryForecast at h
  rw [he, show dictGet (some (l₁ ++ ⟨"tcc_mean", v :: vs⟩ :: l₂)) "parameters" =
        Except.ok (l₁ ++ ⟨"tcc_mean", v :: vs⟩ :: l₂) from rfl,
      except_ok_bind, except_bind_ok] at h
  obtain ⟨st, hfold, hr⟩ := h
  injection hr with hr
  subst hr
  rw [except_foldlM_append, except_bind_ok] at hfold
  obtain ⟨st₀, h₀, h₁⟩ := hfold
  rw [List.foldlM_cons, applyParam_tcc, except_ok_bind] at h₁
  have hkeep := (foldlM_fields l₂ _ st h₁).2.2.2.2.1 hl₂
  simpa using hkeep

/-- Witness for C2 at a concrete entry with `tcc_mean` = 4. -/
theorem C2_witness :
    (⟨0, 0, 0, 0, 50, 0⟩ : SmhiForecast).cloudiness =
      cloudinessOfOcta (pyint 4) :=
  C2_cloudiness_transform.1 ⟨some [⟨"tcc_mean", [4]⟩]⟩ [] [] 4 []
    ⟨0, 0, 0, 0, 50, 0⟩ rfl (by simp) (by decide)

/-- C3: each of the six record fields defaults to 0 whenever the
corresponding named parameter is absent from the entry's parameter
list. -/
theorem C3_absent_defaults_zero (e : TimeSeriesEntry)
    (ps : List ParamJson) (r : SmhiForecast)
    (hp : e.parameters? = some ps)
    (h : entryForecast e = Except.ok r) :
    ((∀ p ∈ ps, p.name ≠ "t") → r.temperature = 0) ∧
    ((∀ p ∈ ps, p.name ≠ "r") → r.humidity = 0) ∧
    ((∀ p ∈ ps, p.name ≠ "msl") → r.pressure = 0) ∧
    ((∀ p ∈ ps, p.name ≠ "tstm") → r.thunder = 0) ∧
    ((∀ p ∈ ps, p.name ≠ "tcc_mean") → r.cloudiness = 0) ∧
    ((∀ p ∈ ps, p.name ≠ "Wsymb2") → r.symbol = 0) := by
  unfold entryForecast at h
  rw [hp, show dictGet (some ps) "parameters" = Except.ok ps from rfl,
      except_ok_bind, except_bind_ok] at h
  obtain ⟨st, hfold, hr⟩ := h
  injection hr with hr
  subst hr
  have hf := foldlM_fields ps initLoopState st hfold
  refine ⟨fun hn => ?_, fun hn => ?_, fun hn => ?_,
          fun hn => ?_, fun hn => ?_, fun hn => ?_⟩
  · simpa [initLoopState] using hf.1 hn
  · simpa [initLoopState] using hf.2.1 hn
  · simpa [initLoopState] using hf.2.2.1 hn
  · simpa [initLoopState] using hf.2.2.2.1 hn
  · simpa [initLoopState] using hf.2.2.2.2.1 hn
  · simpa [initLoopState] using hf.2.2.2.2.2 hn

/-- Witness for C3 at a concrete entry whose parameter list omits
`t`. -/
theorem C3_witness : (⟨0, 0, 0, 0, 0, 50⟩ : SmhiForecast).temperature = 0 :=
  (C3_absent_defaults_zero ⟨some [⟨"Wsymb2", [50]⟩]⟩ [⟨"Wsymb2", [50]⟩]
    ⟨0, 0, 0, 0, 0, 50⟩ rfl (by decide)).1 (by simp)

/-- C4: the concrete end-to-end scenario: one entry with `t`=21,
`r`=60, `tcc_mean`=8, `Wsymb2`=1 maps to exactly one record with
temperature 21, humidity 60, pressure 0, thunder probability 0,
cloudiness 100 and symbol code 1. -/
theorem C4_end_to_end :
    _get_forecast
        ⟨some [⟨some [⟨"t", [21]⟩, ⟨"r", [60]⟩,
                      ⟨"tcc_mean", [8]⟩, ⟨"Wsymb2", [1]⟩]⟩]⟩ =
      Except.ok [⟨21, 60, 0, 0, 100, 1⟩] := by decide

/-- Dropping parameters with unrecognised names does not change the
accumulator fold. -/
theorem foldlM_filter_known :
    ∀ (ps : List ParamJson) (st : LoopState),
      List.foldlM applyParam st ps =
        List.foldlM applyParam st
          (ps.filter fun p => decide (p.name ∈ knownNames)) := by
  intro ps
  induction ps with
  | nil => intro st; rfl
  | cons p t ih =>
    intro st
    by_cases hk : p.name ∈ knownNames
    · rw [List.filter_cons_of_pos (by simpa using hk), List.foldlM_cons,
          List.foldlM_cons]
      cases happ : applyParam st p with
      | error e => rfl
      | ok st₁ =>
        rw [except_ok_bind, except_ok_bind]
        exact ih st₁
    · rw [List.filter_cons_of_neg (by simpa using hk), List.foldlM_cons,
          applyParam_unknown st p hk, except_ok_bind]
      exact ih st

/-- C5: parameters with names outside the recognised six are ignored
silently: they raise nothing and removing them from an entry leaves
the produced record unchanged. -/
theorem C5_unknown_names_ignored :
    (∀ (st : LoopState) (p : ParamJson), p.name ∉ knownNames →
      applyParam st p = Except.ok st) ∧
    ∀ ps : List ParamJson,
      entryForecast ⟨some ps⟩ =
        entryForecast
          ⟨some (ps.filter fun p => decide (p.name ∈ knownNames))⟩ := by
  refine ⟨fun st p h => applyParam_unknown st p h, fun ps => ?_⟩
  unfold entryForecast
  rw [show dictGet (some ps) "parameters" = Except.ok ps from rfl,
      show dictGet (some (ps.filter fun p => decide (p.name ∈ knownNames)))
          "parameters" =
        Except.ok (ps.filter fun p => decide (p.name ∈ knownNames)) from rfl,
      except_ok_bind, except_ok_bind, foldlM_filter_known]

/-- Witness for C5: an unknown parameter `foo` raises nothing and does
not affect the record. -/
theorem C5_witness :
    applyParam initLoopState ⟨"foo", [1]⟩ = Except.ok initLoopState ∧
    entryForecast ⟨some [⟨"t", [21]⟩, ⟨"foo", [99]⟩]⟩ =
      entryForecast
        ⟨some ([⟨"t", [21]⟩, ⟨"foo", [99]⟩].filter
          fun p => decide (p.name ∈ knownNames))⟩ :=
  ⟨C5_unknown_names_ignored.1 initLoopState ⟨"foo", [1]⟩ (by decide),
   C5_unknown_names_ignored.2 [⟨"t", [21]⟩, ⟨"foo", [99]⟩]⟩

/-- The accumulator fold never raises when every parameter has a
non-empty `values` list. -/
theorem foldlM_total :
    ∀ (ps : List ParamJson) (st : LoopState),
      (∀ p ∈ ps, p.values ≠ []) →
      ∃ st', List.foldlM applyParam st ps = Except.ok st' := by
  intro ps
  induction ps with
  | nil => intro st _; exact ⟨st, rfl⟩
  | cons p t ih =>
    intro st hv
    obtain ⟨st₁, h₁⟩ := applyParam_total st p (hv p (List.mem_cons_self p t))
    obtain ⟨st', h'⟩ := ih st₁ fun q hq => hv q (List.mem_cons_of_mem p hq)
    exact ⟨st', by rw [List.foldlM_cons, h₁, except_ok_bind]; exact h'⟩

/-- An entry with a `parameters` list of non-empty-valued parameters
always yields a record. -/
theorem entryForecast_total (e : TimeSeriesEntry) (ps : List ParamJson)
    (hp : e.parameters? = some ps) (hv : ∀ p ∈ ps, p.values ≠ []) :
    ∃ r, entryForecast e = Except.ok r := by
  obtain ⟨st, hst⟩ := foldlM_total ps initLoopState hv
  refine ⟨⟨st.temperature, st.humidity, st.pressure, st.thunder,
           st.cloudiness, st.symbol⟩, ?_⟩
  unfold entryForecast
  rw [hp, show dictGet (some ps) "parameters" = Except.ok ps from rfl,
      except_ok_bind, hst, except_ok_bind]

/-- Mapping a time-series list that contains an entry without
`parameters` fails with the `KeyError` for `parameters`, provided all
present parameter lists have non-empty values. -/
theorem mapM_entry_error :
    ∀ ts : List TimeSeriesEntry,
      (∀ e ∈ ts, ∀ ps, e.parameters? = some ps → ∀ p ∈ ps, p.values ≠ []) →
      (∃ e ∈ ts, e.parameters? = none) →
      ts.mapM entryForecast = Except.error (PyError.keyError "parameters") := by
  intro ts
  induction ts with
  | nil =>
    intro _ hex
    obtain ⟨e, he, _⟩ := hex
    exact absurd he (by simp)
  | cons a t ih =>
    intro hv hex
    rw [List.mapM_cons]
    cases hpa : a.parameters? with
    | none =>
      have ha : entryForecast a = Except.error (PyError.keyError "parameters") := by
        unfold entryForecast
        rw [hpa]
        rfl
      rw [ha]
      rfl
    | some ps =>
      obtain ⟨r, hr⟩ :=
        entryForecast_total a ps hpa (hv a (List.mem_cons_self a t) ps hpa)
      rw [hr, except_ok_bind]
      have hex' : ∃ e ∈ t, e.parameters? = none := by
        obtain ⟨e, he, hpe⟩ := hex
        rcases List.mem_cons.mp he with rfl | hmem
        · rw [hpa] at hpe
          exact absurd hpe (by simp)
        · exact ⟨e, hmem, hpe⟩
      rw [ih (fun e he ps' hps' => hv e (List.mem_cons_of_mem a he) ps' hps')
          hex']
      rfl

/-- C7: a document without `timeSeries`, or one of whose entries lacks
`parameters`, makes the mapper fail with the corresponding `KeyError`
and no partial record list (entries otherwise well-formed: non-empty
`values`). -/
theorem C7_missing_field_errors :
    (∀ api_result : ApiResult, api_result.timeSeries? = none →
      _get_forecast api_result = Except.error (PyError.keyError "timeSeries")) ∧
    ∀ (api_result : ApiResult) (ts : List TimeSeriesEntry),
      api_result.timeSeries? = some ts →
      (∀ e ∈ ts, ∀ ps, e.parameters? = some ps → ∀ p ∈ ps, p.values ≠ []) →
      (∃ e ∈ ts, e.parameters? = none) →
      _get_forecast api_result = Except.error (PyError.keyError "parameters") := by
  constructor
  · intro api_result h
    unfold _get_forecast
    rw [h]
    rfl
  · intro api_result ts hts hv hex
    unfold _get_forecast
    rw [hts, show dictGet (some ts) "timeSeries" = Except.ok ts from rfl,
        except_ok_bind]
    exact mapM_entry_error ts hv hex

/-- Witness for C7: a document without `timeSeries` and a one-entry
document whose entry lacks `parameters`. -/
theorem C7_witness :
    _get_forecast ⟨none⟩ = Except.error (PyError.keyError "timeSeries") ∧
    _get_forecast ⟨some [⟨none⟩]⟩ =
      Except.error (PyError.keyError "parameters") :=
  ⟨C7_missing_field_errors.1 ⟨none⟩ rfl,
   C7_missing_field_errors.2 ⟨some [⟨none⟩]⟩ [⟨none⟩] rfl (by simp)
     ⟨⟨none⟩, by simp, rfl⟩⟩

/-- C6: `_get_forecast` is a deterministic pure function: two
applications to the same document yield element-wise equal record
lists. -/
theorem C6_deterministic (api_result : ApiResult)
    (l₁ l₂ : List SmhiForecast)
    (h₁ : _get_forecast api_result = Except.ok l₁)
    (h₂ : _get_forecast api_result = Except.ok l₂) :
    l₁.length = l₂.length ∧
      ∀ (i : ℕ) (hi : i < l₁.length) (hi' : i < l₂.length),
        l₁.get ⟨i, hi⟩ = l₂.get ⟨i, hi'⟩ := by
  rw [h₁] at h₂
  injection h₂ with h₂
  subst h₂
  exact ⟨rfl, fun i hi hi' => rfl⟩

/-- C8: with injected fetchers that return the same document, the
blocking and the suspending facade operations produce identical record
lists, both equal to `_get_forecast` of that document. -/
theorem C8_sync_async_equal (longitude latitude : String)
    (api : SmhiAPIBase) (session : Option Unit) (doc : ApiResult)
    (hsync : api.get_forecast_api longitude latitude = doc)
    (hasync : api.async_get_forecast_api longitude latitude session = doc) :
    (Smhi.mk longitude latitude api).get_forecast =
      (Smhi.mk longitude latitude api).async_get_forecast session ∧
    (Smhi.mk longitude latitude api).get_forecast = _get_forecast doc := by
  constructor <;>
    simp [Smhi.get_forecast, Smhi.async_get_forecast, hsync, hasync]

/-- Witness for C8 with a concrete test-double API. -/
theorem C8_witness :
    (Smhi.mk "17.041" "62.34198"
        ⟨fun _ _ => ⟨some []⟩, fun _ _ _ => ⟨some []⟩⟩).get_forecast =
      (Smhi.mk "17.041" "62.34198"
        ⟨fun _ _ => ⟨some []⟩,
         fun _ _ _ => ⟨some []⟩⟩).async_get_forecast none ∧
    (Smhi.mk "17.041" "62.34198"
        ⟨fun _ _ => ⟨some []⟩, fun _ _ _ => ⟨some []⟩⟩).get_forecast =
      _get_forecast ⟨some []⟩ :=
  C8_sync_async_equal "17.041" "62.34198"
    ⟨fun _ _ => ⟨some []⟩, fun _ _ _ => ⟨some []⟩⟩ none ⟨some []⟩ rfl rfl

/-- C9: only the first element of each parameter's `values` is
consumed: two entries whose parameter lists agree on names and first
values map to the same result. -/
theorem C9_only_first_value (ps qs : List ParamJson)
    (h : List.Forall₂
      (fun p q => p.name = q.name ∧ p.values.head? = q.values.head?) ps qs) :
    entryForecast ⟨some ps⟩ = entryForecast ⟨some qs⟩ := by
  unfold entryForecast
  rw [show dictGet (some ps) "parameters" = Except.ok ps from rfl,
      show dictGet (some qs) "parameters" = Except.ok qs from rfl,
      except_ok_bind, except_ok_bind]
  have key : ∀ st, List.foldlM applyParam st ps =
      List.foldlM applyParam st qs := by
    induction h with
    | nil => intro st; rfl
    | cons hpq hrest ih =>
      intro st
      rw [List.foldlM_cons, List.foldlM_cons,
          applyParam_head st _ _ hpq.1 hpq.2]
      cases happ : applyParam st _ with
      | error e => rfl
      | ok st₁ =>
        rw [except_ok_bind, except_ok_bind]
        exact ih st₁
  rw [key initLoopState]

/-- Witness for C9: altering and removing values beyond index 0 does
not change the record. -/
theorem C9_witness :
    entryForecast ⟨some [⟨"t", [21, 99]⟩]⟩ =
      entryForecast ⟨some [⟨"t", [21]⟩]⟩ :=
  C9_only_first_value [⟨"t", [21, 99]⟩] [⟨"t", [21]⟩]
    (List.Forall₂.cons ⟨rfl, rfl⟩ List.Forall₂.nil)

/-- The octa-to-percent conversion always lands in `[0, 100]`. -/
theorem cloudinessOfOcta_range (octa : Int) :
    0 ≤ cloudinessOfOcta octa ∧ cloudinessOfOcta octa ≤ 100 := by
  unfold cloudinessOfOcta
  split_ifs with h
  · obtain ⟨h0, h8⟩ := h
    interval_cases octa <;> decide
  · decide

/-- The cloudiness accumulator stays in `[0, 100]` through the fold. -/
theorem foldlM_cloudiness_inv :
    ∀ (ps : List ParamJson) (st st' : LoopState),
      List.foldlM applyParam st ps = Except.ok st' →
      0 ≤ st.cloudiness → st.cloudiness ≤ 100 →
      0 ≤ st'.cloudiness ∧ st'.cloudiness ≤ 100 := by
  intro ps
  induction ps with
  | nil =>
    intro st st' h h0 h1
    rw [List.foldlM_nil] at h
    have : st = st' := by simpa [Pure.pure, Except.pure] using h
    subst this
    exact ⟨h0, h1⟩
  | cons p t ih =>
    intro st st' h h0 h1
    rw [List.foldlM_cons, except_bind_ok] at h
    obtain ⟨st₁, h₁, h₂⟩ := h
    rcases applyParam_cloudiness st st₁ p h₁ with heq | ⟨octa, hocta⟩
    · exact ih st₁ st' h₂ (heq ▸ h0) (heq ▸ h1)
    · have hr := cloudinessOfOcta_range octa
      exact ih st₁ st' h₂ (hocta ▸ hr.1) (hocta ▸ hr.2)

/-- Any record an entry yields has its cloudiness in `[0, 100]`. -/
theorem entryForecast_cloudiness (e : TimeSeriesEntry) (r : SmhiForecast)
    (h : entryForecast e = Except.ok r) :
    0 ≤ r.cloudiness ∧ r.cloudiness ≤ 100 := by
  unfold entryForecast at h
  cases hp : e.parameters? with
  | none =>
    rw [hp] at h
    exact Except.noConfusion h
  | some ps =>
    rw [hp, show dictGet (some ps) "parameters" = Except.ok ps from rfl,
        except_ok_bind, except_bind_ok] at h
    obtain ⟨st, hfold, hr⟩ := h
    injection hr with hr
    subst hr
    have := foldlM_cloudiness_inv ps initLoopState st hfold
      (by decide) (by decide)
    simpa using this

/-- C10: every record the mapper produces has cloudiness in the
inclusive range `[0, 100]`. -/
theorem C10_cloudiness_in_range (api_result : ApiResult)
    (recs : List SmhiForecast)
    (h : _get_forecast api_result = Except.ok recs) :
    ∀ r ∈ recs, 0 ≤ r.cloudiness ∧ r.cloudiness ≤ 100 := by
  intro r hr
  unfold _get_forecast at h
  cases hts : api_result.timeSeries? with
  | none =>
    rw [hts] at h
    exact Except.noConfusion h
  | some ts =>
    rw [hts, show dictGet (some ts) "timeSeries" = Except.ok ts from rfl,
        except_ok_bind] at h
    obtain ⟨i, hi⟩ := List.mem_iff_get.mp hr
    obtain ⟨i, hilt⟩ := i
    have hlen := except_mapM_ok_length entryForecast ts recs h
    have hi' : i < ts.length := hlen ▸ hilt
    have hget := except_mapM_ok_get entryForecast ts recs h i hi' hilt
    rw [hi] at hget
    exact entryForecast_cloudiness _ r hget

/-- Witness for C10 at a concrete document with `tcc_mean` = 8. -/
theorem C10_witness :
    0 ≤ (⟨0, 0, 0, 0, 100, 0⟩ : SmhiForecast).cloudiness ∧
      (⟨0, 0, 0, 0, 100, 0⟩ : SmhiForecast).cloudiness ≤ 100 :=
  C10_cloudiness_in_range ⟨some [⟨some [⟨"tcc_mean", [8]⟩]⟩]⟩
    [⟨0, 0, 0, 0, 100, 0⟩] (by decide) ⟨0, 0, 0, 0, 100, 0⟩ (by simp)

/-- Witness for C6 at a concrete one-entry document. -/
theorem C6_witness :
    ([(⟨21, 0, 0, 0, 0, 0⟩ : SmhiForecast)]).length =
      ([(⟨21, 0, 0, 0, 0, 0⟩ : SmhiForecast)]).length ∧
    ([(⟨21, 0, 0, 0, 0, 0⟩ : SmhiForecast)]).get ⟨0, by decide⟩ =
      ([(⟨21, 0, 0, 0, 0, 0⟩ : SmhiForecast)]).get ⟨0, by decide⟩ := by
  have h := C6_deterministic ⟨some [⟨some [⟨"t", [21]⟩]⟩]⟩
    [⟨21, 0, 0, 0, 0, 0⟩] [⟨21, 0, 0, 0, 0, 0⟩] (by decide) (by decide)
  exact ⟨h.1, h.2 0 (by decide) (by decide)⟩
